import Mathlib

/-!
Verification of the forecasting core of the phase_a_demo repository.

The Python source is shallowly embedded: game-log records become `GameRec`,
numeric stat fields become `StatField` (a field can be absent, numeric, or
malformed, mirroring `g.get(stat, 0)` / `float(...)` failure modes), floats
become rationals (confidence, which the source derives through a square
root, becomes a real number), and functions returning the Python
`(None, None, None)` triple become `Option`-valued functions where `none`
is that triple.
-/

namespace PhaseADemo

/-- A single stat field of a game-log record.  `absent` models a missing
dictionary key, `numF q` a value `float` accepts, `malformedF` a value on
which `float` raises `ValueError`/`TypeError`. -/
inductive StatField
  | absent
  | numF (q : ℚ)
  | malformedF
  deriving DecidableEq

/-- A game-log record: a mapping from stat names to fields plus the
`MATCHUP` descriptor string.  (`MIN` is looked up through `stats` like any
other key, as in the Python dictionaries.) -/
structure GameRec where
  stats : String → StatField
  matchup : String

/-- `float(g.get(stat, 0))` wrapped in try/except: a missing key defaults
to `0` (which `float` accepts); a malformed value is skipped. -/
def try_float_default0 : StatField → Option ℚ
  | .absent => some 0
  | .numF q => some q
  | .malformedF => none

/-- `g.get(stat)` followed by an `is None` check and `float(...)` in
try/except (used by `_home_away_adjustment`): missing keys are skipped. -/
def try_float : StatField → Option ℚ
  | .absent => none
  | .numF q => some q
  | .malformedF => none

/-- `mins = g.get('MIN')` followed by `if mins:` (Python truthiness: `None`
and `0` are falsy) and `float(mins)` in try/except. -/
def minutes_val : StatField → Option ℚ
  | .absent => none
  | .numF q => if q = 0 then none else some q
  | .malformedF => none

/-- Number of records of a series whose value for `stat` the base
forecaster can use (i.e. `float(g.get(stat, 0))` succeeds). -/
def usableCount (games : List GameRec) (stat : String) : ℕ :=
  games.countP fun g => (try_float_default0 (g.stats stat)).isSome

/-- The loop of `_calculate_base`: walk the records keeping the raw
enumeration index `i`, pairing each usable value with weight
`1.0 - i * 0.1`; malformed records are skipped but still advance `i`. -/
def collectRW (stat : String) : List GameRec → ℕ → List (ℚ × ℚ)
  | [], _ => []
  | g :: gs, i =>
    match try_float_default0 (g.stats stat) with
    | some v => (v, 1 - (i : ℚ) / 10) :: collectRW stat gs (i + 1)
    | none => collectRW stat gs (i + 1)

/-- The (value, weight) pairs `_calculate_base` collects from
`games[:5]`. -/
def recentPairs (games : List GameRec) (stat : String) : List (ℚ × ℚ) :=
  collectRW stat (games.take 5) 0

/-- The weighted average `sum(r * w) / sum(weights)` of `_calculate_base`
(meaningful when at least one pair was collected). -/
def weighted_avg_of (games : List GameRec) (stat : String) : ℚ :=
  let ps := recentPairs games stat
  (ps.map fun p => p.1 * p.2).sum / (ps.map Prod.snd).sum

/-- The base prediction of `_calculate_base`: `none` when fewer than three
usable values were collected from the five most recent records. -/
def calculate_base_val (games : List GameRec) (stat : String) : Option ℚ :=
  let ps := recentPairs games stat
  if ps.length < 3 then none
  else some (weighted_avg_of games stat)

/-- `variance = sum((x - weighted_avg) ** 2 for x in recent) / len(recent)`
of `_calculate_base`. -/
def variance_of (games : List GameRec) (stat : String) : ℚ :=
  let ps := recentPairs games stat
  let avg := weighted_avg_of games stat
  (ps.map fun p => (p.1 - avg) ^ 2).sum / (ps.length : ℚ)

/-- `confidence = max(50, 100 - (std_dev * 5))` of `_calculate_base`,
with `std_dev = variance ** 0.5`. -/
noncomputable def base_confidence (games : List GameRec) (stat : String) : ℝ :=
  max 50 (100 - Real.sqrt ((variance_of games stat : ℚ) : ℝ) * 5)

/-- The static `team_defensive_ratings` table of `SmartPredictor`. -/
def team_defensive_ratings : List (String × ℚ) :=
  [("ATL", 112), ("BOS", 108), ("BKN", 114), ("CHA", 116), ("CHI", 113),
   ("CLE", 107), ("DAL", 110), ("DEN", 111), ("DET", 115), ("GSW", 112),
   ("HOU", 109), ("IND", 117), ("LAC", 111), ("LAL", 113), ("MEM", 110),
   ("MIA", 109), ("MIL", 112), ("MIN", 108), ("NOP", 118), ("NYK", 108),
   ("OKC", 106), ("ORL", 107), ("PHI", 114), ("PHX", 113), ("POR", 119),
   ("SAC", 117), ("SAS", 120), ("TOR", 115), ("UTA", 118), ("WAS", 121)]

/-- `league_avg_rating` of `SmartPredictor`. -/
def league_avg_rating : ℚ := 112

/-- `_opponent_adjustment`: rating looked up with league average as
default; `adjustment_pct = (rating_diff / 5) * 0.02`. -/
def opponent_adjustment (opponent : String) (base_pred : ℚ) : ℚ :=
  let opp_rating := (team_defensive_ratings.lookup opponent).getD league_avg_rating
  let rating_diff := opp_rating - league_avg_rating
  base_pred * (rating_diff / 5 * (2 / 100))

/-- Whether the first list is a leading segment of the second. -/
def leadsList : List Char → List Char → Bool
  | [], _ => true
  | _ :: _, [] => false
  | a :: as, b :: bs => decide (a = b) && leadsList as bs

/-- Python substring containment `pat in s`. -/
def strContains (s pat : String) : Bool :=
  s.data.tails.any fun t => leadsList pat.data t

/-- ASCII lowercasing of one character (the case arising for the names
and statuses the source compares). -/
def lowerChar (c : Char) : Char :=
  if 64 < c.toNat ∧ c.toNat < 91 then Char.ofNat (c.toNat + 32) else c

/-- Python `s.lower()`. -/
def strToLower (s : String) : String := ⟨s.data.map lowerChar⟩

/-- Mean of a list of rationals (`sum(l) / len(l)`). -/
def qAvg (l : List ℚ) : ℚ := l.sum / (l.length : ℚ)

/-- The classification loop of `_home_away_adjustment`: records with a
missing or malformed stat are skipped; `'vs.' in matchup` marks a home
game, otherwise `'@' in matchup` marks an away game. -/
def splitHA (stat : String) : List GameRec → List ℚ × List ℚ
  | [] => ([], [])
  | g :: gs =>
    let rest := splitHA stat gs
    match try_float (g.stats stat) with
    | none => rest
    | some v =>
      if strContains g.matchup "vs." then (v :: rest.1, rest.2)
      else if strContains g.matchup "@" then (rest.1, v :: rest.2)
      else rest

/-- `_home_away_adjustment` over `games[:10]`. -/
def home_away_adjustment (games : List GameRec) (stat : String) (is_home : Bool) : ℚ :=
  let ha := splitHA stat (games.take 10)
  if ha.1 ≠ [] ∧ ha.2 ≠ [] then
    let diff := qAvg ha.1 - qAvg ha.2
    if is_home then diff * (1 / 2) else -diff * (1 / 2)
  else
    if is_home then 1 / 2 else -(1 / 2)

/-- `_rest_adjustment`. -/
def rest_adjustment (days_rest : ℤ) (stat : String) : ℚ :=
  if days_rest = 0 then (if stat = "PTS" then -2 else -(1 / 2))
  else if days_rest = 1 then (if stat = "PTS" then -(3 / 2) else -(3 / 10))
  else if 3 ≤ days_rest then (if stat = "PTS" then 1 / 2 else 1 / 10)
  else 0

/-- The splitting loop of `_form_adjustment` over `games[:6]`: usable
values at raw positions `< 3` go to the recent bucket, the rest to the
previous bucket. -/
def formSplit (stat : String) : List GameRec → ℕ → List ℚ × List ℚ
  | [], _ => ([], [])
  | g :: gs, i =>
    let rest := formSplit stat gs (i + 1)
    match try_float_default0 (g.stats stat) with
    | none => rest
    | some v => if i < 3 then (v :: rest.1, rest.2) else (rest.1, v :: rest.2)

/-- `_form_adjustment`. -/
def form_adjustment (games : List GameRec) (stat : String) : ℚ :=
  if games.length < 6 then 0
  else
    let rp := formSplit stat (games.take 6) 0
    if rp.1.length < 3 ∨ rp.2.length < 3 then 0
    else
      let trend := (qAvg rp.1 - qAvg rp.2) * (3 / 10)
      let max_adj : ℚ := if stat = "PTS" then 2 else 1 / 2
      max (-max_adj) (min max_adj trend)

/-- `_minutes_adjustment` over `games[:5]`. -/
def minutes_adjustment (games : List GameRec) (base_pred : ℚ) : ℚ :=
  let ms := (games.take 5).filterMap fun g => minutes_val (g.stats "MIN")
  if ms.length < 3 then 0
  else
    let avg := qAvg ms
    if avg < 25 then base_pred * (-(5 / 100))
    else if 35 < avg then base_pred * (3 / 100)
    else 0

/-- Round-half-to-even to an integer (the rounding Python's `round`
performs on exactly representable values). -/
def rhe (q : ℚ) : ℤ :=
  let n := ⌊q⌋
  if q - n < 1 / 2 then n
  else if 1 / 2 < q - n then n + 1
  else if n % 2 = 0 then n else n + 1

/-- Python `round(x, d)` on rationals. -/
def roundq (d : ℕ) (x : ℚ) : ℚ := (rhe (x * 10 ^ d) : ℚ) / 10 ^ d

/-- Round-half-to-even on the reals. -/
noncomputable def rheR (x : ℝ) : ℤ :=
  let n := ⌊x⌋
  if x - n < 1 / 2 then n
  else if 1 / 2 < x - n then n + 1
  else if n % 2 = 0 then n else n + 1

/-- Python `round(x, d)` on reals. -/
noncomputable def roundR (d : ℕ) (x : ℝ) : ℝ := (rheR (x * 10 ^ d) : ℝ) / 10 ^ d

/-- Python truthiness of the `opponent` argument (`None` and the empty
string are falsy). -/
def optTruthy : Option String → Bool
  | none => false
  | some s => !(s == "")

/-- The `breakdown` dictionary `predict_with_context` returns: base
prediction rounded to 1 decimal, the ordered adjustment association list
(Python dictionaries preserve insertion order), and the total adjustment
rounded to 2 decimals. -/
structure Breakdown where
  basePrediction : ℚ
  adjustments : List (String × ℚ)
  totalAdjustment : ℚ
  deriving DecidableEq

/-- The deterministic part of `predict_with_context`: rounded final
prediction and breakdown, `none` for the `(None, None, None)` early
returns.  The `opponent` adjustment is computed and recorded only when
`opponent` is truthy and `stat == 'PTS'`; the other four adjustments are
always recorded, in the source's insertion order, each rounded to 2
decimals in the breakdown while the unrounded values accumulate into the
final prediction. -/
def predictCore (games : List GameRec) (stat : String) (opponent : Option String)
    (is_home : Bool) (days_rest : ℤ) : Option (ℚ × Breakdown) :=
  if games.length < 3 then none
  else
    match calculate_base_val games stat with
    | none => none
    | some base_pred =>
      let useOpp : Bool := optTruthy opponent && (stat == "PTS")
      let opp_adj : ℚ := if useOpp then opponent_adjustment (opponent.getD "") base_pred else 0
      let oppList : List (String × ℚ) := if useOpp then [("opponent", roundq 2 opp_adj)] else []
      let home_adj := home_away_adjustment games stat is_home
      let rest_adj := rest_adjustment days_rest stat
      let form_adj := form_adjustment games stat
      let mins_adj := minutes_adjustment games base_pred
      let final_pred := base_pred + opp_adj + home_adj + rest_adj + form_adj + mins_adj
      let adjustments := oppList ++
        [("home_away", roundq 2 home_adj), ("rest", roundq 2 rest_adj),
         ("form", roundq 2 form_adj), ("minutes", roundq 2 mins_adj)]
      some (roundq 1 final_pred,
        { basePrediction := roundq 1 base_pred
          adjustments := adjustments
          totalAdjustment := roundq 2 (final_pred - base_pred) })

/-- `_adjust_confidence`: sample-size bonus/penalty, a penalty when the
summed absolute (rounded) adjustments exceed 3, then a clamp to
`[50, 95]`. -/
noncomputable def adjust_confidence (base_conf : ℝ) (sample_size : ℕ)
    (adjustments : List (String × ℚ)) : ℝ :=
  let c1 := if 10 ≤ sample_size then base_conf + 5
            else if sample_size < 5 then base_conf - 10 else base_conf
  let total_adj : ℚ := (adjustments.map fun p => |p.2|).sum
  let c2 := if 3 < total_adj then c1 - 5 else c1
  max 50 (min 95 c2)

/-- `SmartPredictor.predict_with_context`: `none` is the
`(None, None, None)` triple; a result carries the rounded prediction, the
rounded adjusted confidence and the breakdown. -/
noncomputable def predict_with_context (games : List GameRec) (stat : String)
    (opponent : Option String) (is_home : Bool) (days_rest : ℤ) :
    Option (ℚ × ℝ × Breakdown) :=
  (predictCore games stat opponent is_home days_rest).map fun pb =>
    (pb.1,
     roundR 1 (adjust_confidence (base_confidence games stat) games.length pb.2.adjustments),
     pb.2)

/-- One row of the scraped injury report. -/
structure InjEntry where
  player : String
  injury : String
  status : String
  deriving DecidableEq

/-- `InjuryDataCollector.is_player_out`: case-insensitive substring match
on the player name; the status must contain `'out'` or `'doubtful'`. -/
def is_player_out (inj : List (String × List InjEntry)) (team player_name : String) : Bool :=
  ((inj.lookup team).getD []).any fun e =>
    strContains (strToLower e.player) (strToLower player_name) &&
      (strContains (strToLower e.status) "out" || strContains (strToLower e.status) "doubtful")

/-- `InjuryDataCollector.get_team_key_injuries`: the rows whose status
contains `'out'`. -/
def get_team_key_injuries (inj : List (String × List InjEntry)) (team : String) :
    List InjEntry :=
  ((inj.lookup team).getD []).filter fun e => strContains (strToLower e.status) "out"

/-- `InjuryDataCollector.calculate_usage_boost`, summed as in
`predict_with_injuries`: `0.3` per own OUT teammate plus `0.2` per
opponent OUT player. -/
def usage_boost (inj : List (String × List InjEntry)) (player_team opponent_team : String) : ℚ :=
  3 / 10 * ((get_team_key_injuries inj player_team).length : ℚ) +
    2 / 10 * ((get_team_key_injuries inj opponent_team).length : ℚ)

/-- `SmartPredictorWithInjuries.predict_with_injuries`.  The subject-OUT
check runs only after the context prediction succeeded, and its result is
the same `none` triple used for insufficient data.  The boost is added to
the (already rounded) prediction and appended to the breakdown as an
`injuries` entry; the confidence is passed through unchanged. -/
noncomputable def predict_with_injuries (inj : List (String × List InjEntry))
    (games : List GameRec) (stat player_name player_team : String)
    (opponent : Option String) (is_home : Bool) (days_rest : ℤ) :
    Option (ℚ × ℝ × Breakdown) :=
  match predict_with_context games stat opponent is_home days_rest with
  | none => none
  | some (base_pred, confidence, breakdown) =>
    if is_player_out inj player_team player_name then none
    else
      let opponent_team := match opponent with
        | some o => if o == "" then player_team else o
        | none => player_team
      let boost := usage_boost inj player_team opponent_team
      if 0 < boost then
        some (roundq 1 (base_pred + boost), confidence,
          { breakdown with
            adjustments := breakdown.adjustments ++ [("injuries", roundq 2 boost)]
            totalAdjustment := breakdown.totalAdjustment + boost })
      else
        some (roundq 1 base_pred, confidence,
          { breakdown with adjustments := breakdown.adjustments ++ [("injuries", 0)] })

/-- One (player, stat-type, prediction, reference-line) tuple fed to the
value matcher.  `prediction` stands for the predictor stage's output for
this player and stat (`none` when it returned no value); `line` is the
betting line (`none` when absent). -/
structure PropEntry where
  player : String
  statType : String
  prediction : Option ℚ
  line : Option ℚ
  deriving DecidableEq

/-- The `stat_code` mapping of `find_value_bets`. -/
def statCode (s : String) : Option String :=
  if s = "points" then some "PTS"
  else if s = "rebounds" then some "REB"
  else if s = "assists" then some "AST"
  else none

/-- One recorded comparison of `find_value_bets`.  `edge` is the stored,
1-decimal-rounded deviation; `recommendation` is `some` exactly for
actionable comparisons and holds the direction of the source's
`"Bet OVER/UNDER <line>"` string. -/
structure Comparison where
  player : String
  statType : String
  prediction : ℚ
  line : ℚ
  edge : ℚ
  recommendation : Option String
  deriving DecidableEq

/-- The comparison-building loop of `find_value_bets`, in enumeration
order: `(all_comparisons, value_bets)`.  A falsy line (`None` or `0`) is
skipped, then an unrecognized stat type, then an absent prediction; the
actionability test uses the unrounded edge. -/
def mkComparisons (min_edge : ℚ) : List PropEntry → List Comparison × List Comparison
  | [] => ([], [])
  | e :: es =>
    let rest := mkComparisons min_edge es
    match e.line with
    | none => rest
    | some l =>
      if l = 0 then rest
      else
        match statCode e.statType, e.prediction with
        | some _, some p =>
          let edge := p - l
          let c : Comparison :=
            { player := e.player, statType := e.statType, prediction := p, line := l,
              edge := roundq 1 edge,
              recommendation :=
                if min_edge ≤ |edge| then some (if 0 < edge then "OVER" else "UNDER")
                else none }
          (c :: rest.1, if min_edge ≤ |edge| then c :: rest.2 else rest.2)
        | _, _ => rest

/-- The comparison the sort uses: `a` may precede `b` when the stored
absolute edge of `a` is at least that of `b`. -/
def cmpEdge (a b : Comparison) : Bool := decide (|b.edge| ≤ |a.edge|)

/-- The sort both output lists receive:
`sort(key=lambda x: abs(x['edge']), reverse=True)` — a stable sort
(mergeSort), descending on the stored (rounded) absolute edge. -/
def sortByEdgeDesc (l : List Comparison) : List Comparison :=
  l.mergeSort cmpEdge

/-- The two list outputs of the `/value-bets/today` response:
`value_bets` always, `all_comparisons` (truncated to 50 entries) only when
`show_all` is set. -/
structure VBOut where
  valueBets : List Comparison
  allComparisons : Option (List Comparison)
  deriving DecidableEq

/-- The value-matching core of `find_value_bets`: build the comparisons,
sort each list by descending absolute stored edge, truncate the full list
to 50 when exposed. -/
def find_value_bets (entries : List PropEntry) (min_edge : ℚ) (show_all : Bool) : VBOut :=
  let ab := mkComparisons min_edge entries
  { valueBets := sortByEdgeDesc ab.2
    allComparisons := if show_all then some ((sortByEdgeDesc ab.1).take 50) else none }

/-- The `api_cache` table: rows `(cache_key, payload, timestamp)`, the key
being primary.  Timestamps are seconds. -/
def set_cache {α : Type} (c : List (String × α × ℚ)) (k : String) (v : α) (now : ℚ) :
    List (String × α × ℚ) :=
  (k, v, now) :: c.filter fun e => decide (e.1 ≠ k)

/-- `_get_cached`: a hit returns the payload when the row exists and
`(now - timestamp) / 3600 < max_age_hours`. -/
def get_cached {α : Type} (c : List (String × α × ℚ)) (k : String)
    (max_age_hours : ℚ) (now : ℚ) : Option α :=
  match c.find? fun e => decide (e.1 = k) with
  | some e => if (now - e.2.2) / 3600 < max_age_hours then some e.2.1 else none
  | none => none

/-- The forced-refresh flush of `find_value_bets` (`os.remove` of the
cache database): the whole store is cleared. -/
def flush_all (α : Type) : List (String × α × ℚ) := []

/-- A game record carrying only a numeric `PTS` value and a matchup. -/
def simpleGame (pts : ℚ) (matchup : String) : GameRec :=
  { stats := fun s => if s = "PTS" then .numF pts else .absent
    matchup := matchup }

/-- Five home games, 20 points each. -/
def G5 : List GameRec :=
  [simpleGame 20 "LAL vs. GSW", simpleGame 20 "LAL vs. GSW", simpleGame 20 "LAL vs. GSW",
   simpleGame 20 "LAL vs. GSW", simpleGame 20 "LAL vs. GSW"]

/-- Two games only: the series is too short for a forecast. -/
def G2 : List GameRec := [simpleGame 20 "LAL vs. GSW", simpleGame 18 "LAL vs. BOS"]

/-- The spec's weighted-mean example series, most-recent-first. -/
def G4 : List GameRec :=
  [simpleGame 10 "", simpleGame 20 "", simpleGame 30 "", simpleGame 40 "", simpleGame 50 ""]

/-- A record whose `PTS` value is malformed (e.g. a non-numeric string). -/
def gBad : GameRec :=
  { stats := fun s => if s = "PTS" then .malformedF else .absent, matchup := "" }

/-- Three usable records following `gBad`. -/
def ts3 : List GameRec := [simpleGame 20 "", simpleGame 30 "", simpleGame 40 ""]

/-- An injury table listing the subject as OUT. -/
def injT : List (String × List InjEntry) :=
  [("LAL", [{ player := "LeBron James", injury := "Ankle", status := "Out" }])]

/-- The breakdown `predict_with_context` produces on `G5` for `PTS` with
no opponent, home, two days of rest. -/
def bd0 : Breakdown :=
  { basePrediction := 20
    adjustments := [("home_away", 1 / 2), ("rest", 0), ("form", 0), ("minutes", 0)]
    totalAdjustment := 1 / 2 }

/-- The confidence `predict_with_context` produces on `G5` for `PTS`. -/
noncomputable def conf0 : ℝ :=
  roundR 1 (adjust_confidence (base_confidence G5 "PTS") G5.length bd0.adjustments)

/-- `bd0` after `predict_with_injuries` appends its zero `injuries`
entry. -/
def bdInj : Breakdown :=
  { bd0 with adjustments := bd0.adjustments ++ [("injuries", 0)] }

/-- A tuple whose reference line is 0: non-null, but falsy in Python. -/
def eZero : PropEntry := { player := "A", statType := "points", prediction := some 10, line := some 0 }

/-- A well-formed tuple for the value matcher. -/
def e6 : PropEntry := { player := "A", statType := "points", prediction := some 10, line := some (5 / 2) }

/-- Fifty-one valid tuples with distinct edges. -/
def entries51 : List PropEntry :=
  (List.range 51).map fun (k : ℕ) =>
    { player := toString k, statType := "points", prediction := some ((k : ℚ) + 10), line := some 1 }

/-- The breakdown `predict_with_context` produces on `G5` for `REB` with
an opponent supplied: the opponent term is absent because the category is
not `PTS`. -/
def bdR : Breakdown :=
  { basePrediction := 0
    adjustments := [("home_away", 1 / 2), ("rest", 0), ("form", 0), ("minutes", 0)]
    totalAdjustment := 1 / 2 }

/-! ## Helper lemmas -/

theorem rhe_intCast (m : ℤ) : rhe (m : ℚ) = m := by
  unfold rhe
  simp

/-- When `x` is exactly representable at `d` decimals, Python's
`round(x, d)` returns it unchanged. -/
theorem roundq_eq_self (d : ℕ) (x : ℚ) (m : ℤ) (h : x * 10 ^ d = (m : ℚ)) :
    roundq d x = x := by
  rw [roundq, h, rhe_intCast]
  rw [eq_comm, eq_div_iff (by positivity)]
  exact h

theorem recentPairs_G5 :
    recentPairs G5 "PTS" = [(20, 1), (20, 9 / 10), (20, 4 / 5), (20, 7 / 10), (20, 3 / 5)] := by
  simp [recentPairs, G5, collectRW, simpleGame, try_float_default0, List.take]
  norm_num

theorem calculate_base_val_G5 : calculate_base_val G5 "PTS" = some 20 := by
  rw [calculate_base_val, weighted_avg_of, recentPairs_G5]
  norm_num

theorem home_away_G5 : home_away_adjustment G5 "PTS" true = 1 / 2 := by
  have hv : strContains "LAL vs. GSW" "vs." = true := by decide
  rw [home_away_adjustment]
  simp [splitHA, G5, simpleGame, try_float, hv, List.take]

theorem rest_2_PTS : rest_adjustment 2 "PTS" = 0 := by
  simp [rest_adjustment]

theorem form_G5 : form_adjustment G5 "PTS" = 0 := by
  simp [form_adjustment, G5]

theorem minutes_G5 (b : ℚ) : minutes_adjustment G5 b = 0 := by
  simp [minutes_adjustment, G5, simpleGame, minutes_val, List.take]

theorem predictCore_G5 : predictCore G5 "PTS" none true 2 = some (41 / 2, bd0) := by
  rw [predictCore, if_neg (by decide : ¬ G5.length < 3), calculate_base_val_G5]
  simp only [home_away_G5, rest_2_PTS, form_G5, minutes_G5, optTruthy, Bool.false_and]
  norm_num [bd0, roundq_eq_self 1 (41 / 2) 205 (by norm_num),
    roundq_eq_self 1 20 200 (by norm_num), roundq_eq_self 2 (1 / 2) 50 (by norm_num),
    roundq_eq_self 2 0 0 (by norm_num)]

theorem predict_with_context_G5 :
    predict_with_context G5 "PTS" none true 2 = some (41 / 2, conf0, bd0) := by
  rw [predict_with_context, predictCore_G5, conf0]
  rfl

theorem recentPairs_G5REB :
    recentPairs G5 "REB" = [(0, 1), (0, 9 / 10), (0, 4 / 5), (0, 7 / 10), (0, 3 / 5)] := by
  simp [recentPairs, G5, collectRW, simpleGame, try_float_default0, List.take]
  norm_num

theorem calculate_base_val_G5REB : calculate_base_val G5 "REB" = some 0 := by
  rw [calculate_base_val, weighted_avg_of, recentPairs_G5REB]
  norm_num

theorem home_away_G5REB : home_away_adjustment G5 "REB" true = 1 / 2 := by
  rw [home_away_adjustment]
  simp [splitHA, G5, simpleGame, try_float, List.take]

theorem rest_2_REB : rest_adjustment 2 "REB" = 0 := by
  simp [rest_adjustment]

theorem form_G5REB : form_adjustment G5 "REB" = 0 := by
  simp [form_adjustment, G5]

theorem predictCore_G5REB : predictCore G5 "REB" (some "BOS") true 2 = some (1 / 2, bdR) := by
  rw [predictCore, if_neg (by decide : ¬ G5.length < 3), calculate_base_val_G5REB]
  simp only [home_away_G5REB, rest_2_REB, form_G5REB, minutes_G5, optTruthy]
  simp only [show (!"BOS" == "" && "REB" == "PTS") = false from by decide]
  norm_num [bdR, roundq_eq_self 1 (1 / 2) 5 (by norm_num), roundq_eq_self 1 0 0 (by norm_num),
    roundq_eq_self 2 (1 / 2) 50 (by norm_num), roundq_eq_self 2 0 0 (by norm_num)]

theorem predict_with_context_G2 : predict_with_context G2 "PTS" none true 2 = none := by
  rw [predict_with_context, predictCore, if_pos (by decide : G2.length < 3)]
  rfl

theorem usage_boost_nil (t1 t2 : String) : usage_boost [] t1 t2 = 0 := by
  simp [usage_boost, get_team_key_injuries, List.lookup]

theorem predict_with_injuries_G5empty :
    predict_with_injuries [] G5 "PTS" "Anyone" "LAL" none true 2 = some (41 / 2, conf0, bdInj) := by
  rw [predict_with_injuries.eq_def, predict_with_context_G5]
  simp only [show is_player_out [] "LAL" "Anyone" = false from rfl, Bool.false_eq_true,
    if_false, usage_boost_nil, lt_self_iff_false, bdInj]
  rw [roundq_eq_self 1 (41 / 2) 205 (by norm_num)]

/-- The collected (value, weight) pairs are exactly one per usable record
of the window. -/
theorem collectRW_length (stat : String) (gs : List GameRec) :
    ∀ i, (collectRW stat gs i).length =
      gs.countP fun g => (try_float_default0 (g.stats stat)).isSome := by
  induction gs with
  | nil => intro i; simp [collectRW]
  | cons g gs ih =>
    intro i
    rw [collectRW, List.countP_cons]
    cases h : try_float_default0 (g.stats stat) with
    | none => simp [h, ih]
    | some v => simp [h, ih (i + 1)]

theorem countP_take_le (p : GameRec → Bool) (l : List GameRec) (n : ℕ) :
    (l.take n).countP p ≤ l.countP p := by
  conv_rhs => rw [← List.take_append_drop n l]
  rw [List.countP_append]
  exact Nat.le_add_right _ _

/-! ## Claim theorems -/

/-- Claim C1: for every history series and target category with fewer
than 3 usable numeric values for that category, the forecast operation
(`predict_with_context` via `_calculate_base`) returns the
insufficient-data outcome (the `None` triple, here `none`) and never a
numeric forecast value. -/
theorem C1_insufficient_data (games : List GameRec) (stat : String)
    (opponent : Option String) (is_home : Bool) (days_rest : ℤ)
    (h : usableCount games stat < 3) :
    predict_with_context games stat opponent is_home days_rest = none := by
  have hcore : predictCore games stat opponent is_home days_rest = none := by
    rw [predictCore]
    by_cases hlen : games.length < 3
    · rw [if_pos hlen]
    · rw [if_neg hlen]
      have hbase : calculate_base_val games stat = none := by
        rw [calculate_base_val]
        have hlt : (recentPairs games stat).length < 3 := by
          rw [recentPairs, collectRW_length]
          exact lt_of_le_of_lt (countP_take_le _ _ _) h
        rw [if_pos hlt]
      rw [hbase]
  rw [predict_with_context, hcore]
  rfl

/-- Witness for C1 at a two-game series. -/
theorem C1_witness :
    usableCount G2 "PTS" < 3 ∧ predict_with_context G2 "PTS" none true 2 = none :=
  ⟨by decide, C1_insufficient_data G2 "PTS" none true 2 (by decide)⟩

/-- Claim C2, amended: when the subject is listed OUT (a status containing
`out` — or `doubtful`, which the code treats identically),
`predict_with_injuries` never returns a numeric forecast; it returns the
same `None` triple that signals insufficient data, not a distinct
`Unavailable` outcome. -/
theorem C2_amended_out_never_numeric (inj : List (String × List InjEntry))
    (games : List GameRec) (stat player_name player_team : String)
    (opponent : Option String) (is_home : Bool) (days_rest : ℤ)
    (h : is_player_out inj player_team player_name = true) :
    predict_with_injuries inj games stat player_name player_team opponent is_home days_rest
      = none := by
  rw [predict_with_injuries.eq_def]
  cases hpc : predict_with_context games stat opponent is_home days_rest with
  | none => rfl
  | some t =>
    obtain ⟨a, b, d⟩ := t
    simp [h]

/-- Witness for the amended C2. -/
theorem C2_witness :
    is_player_out injT "LAL" "LeBron James" = true
    ∧ predict_with_injuries injT G5 "PTS" "LeBron James" "LAL" none true 2 = none :=
  ⟨by decide,
   C2_amended_out_never_numeric injT G5 "PTS" "LeBron James" "LAL" none true 2 (by decide)⟩

/-- Counterexample to C2 as stated: on a series with ample data and the
subject OUT, `predict_with_injuries` returns exactly the same outcome as
on a two-game series (insufficient data) — the code has no `Unavailable`
outcome distinct from the insufficient-data one. -/
theorem C2_counterexample :
    predict_with_injuries injT G5 "PTS" "LeBron James" "LAL" none true 2 =
      predict_with_injuries injT G2 "PTS" "LeBron James" "LAL" none true 2
    ∧ predict_with_injuries injT G5 "PTS" "LeBron James" "LAL" none true 2 = none
    ∧ usableCount G2 "PTS" < 3 := by
  have h5 : predict_with_injuries injT G5 "PTS" "LeBron James" "LAL" none true 2 = none := by
    rw [predict_with_injuries.eq_def, predict_with_context_G5]
    simp [show is_player_out injT "LAL" "LeBron James" = true from by decide]
  have h2 : predict_with_injuries injT G2 "PTS" "LeBron James" "LAL" none true 2 = none := by
    rw [predict_with_injuries.eq_def, predict_with_context_G2]
  exact ⟨h5.trans h2.symm, h5, by decide⟩

theorem predictCore_adjust_names (games : List GameRec) (stat : String)
    (opponent : Option String) (is_home : Bool) (days_rest : ℤ) (pb : ℚ × Breakdown)
    (h : predictCore games stat opponent is_home days_rest = some pb) :
    pb.2.adjustments.map Prod.fst =
      if (optTruthy opponent && (stat == "PTS")) = true then
        ["opponent", "home_away", "rest", "form", "minutes"]
      else ["home_away", "rest", "form", "minutes"] := by
  rw [predictCore] at h
  by_cases hlen : games.length < 3
  · rw [if_pos hlen] at h; exact absurd h (by simp)
  · rw [if_neg hlen] at h
    cases hb : calculate_base_val games stat with
    | none => rw [hb] at h; exact absurd h (by simp)
    | some base =>
      rw [hb] at h
      have h2 := Option.some.inj h
      rw [← h2]
      cases hu : (optTruthy opponent && (stat == "PTS")) <;> simp [hu]

/-- Claim C3, amended: a successful context forecast records the four
terms home/away, rest, trend (`form`) and minutes — named, in that fixed
order, including zero values — and additionally records the opponent term,
first, exactly when an opponent was supplied (truthy) and the category is
the primary scoring category `PTS`. -/
theorem C3_amended_breakdown_names (games : List GameRec) (stat : String)
    (opponent : Option String) (is_home : Bool) (days_rest : ℤ)
    (p : ℚ) (c : ℝ) (bd : Breakdown)
    (h : predict_with_context games stat opponent is_home days_rest = some (p, c, bd)) :
    bd.adjustments.map Prod.fst =
      if (optTruthy opponent && (stat == "PTS")) = true then
        ["opponent", "home_away", "rest", "form", "minutes"]
      else ["home_away", "rest", "form", "minutes"] := by
  rw [predict_with_context] at h
  cases hc : predictCore games stat opponent is_home days_rest with
  | none => rw [hc] at h; exact absurd h (by simp)
  | some pb =>
    rw [hc] at h
    simp only [Option.map_some'] at h
    have h3 := Option.some.inj h
    have hbd : pb.2 = bd := congrArg (fun t : ℚ × ℝ × Breakdown => t.2.2) h3
    rw [← hbd]
    exact predictCore_adjust_names games stat opponent is_home days_rest pb hc

/-- Witness for the amended C3: with no opponent, exactly the four other
terms appear, in order. -/
theorem C3_witness :
    bd0.adjustments.map Prod.fst =
      if (optTruthy none && ("PTS" == "PTS")) = true then
        ["opponent", "home_away", "rest", "form", "minutes"]
      else ["home_away", "rest", "form", "minutes"] :=
  C3_amended_breakdown_names G5 "PTS" none true 2 (41 / 2) conf0 bd0 predict_with_context_G5

/-- Counterexample to C3 as stated: a successful forecast (category `REB`,
opponent supplied) whose breakdown contains only four adjustment terms —
the opponent term is not recorded, so not all five terms appear. -/
theorem C3_counterexample :
    (predict_with_context G5 "REB" (some "BOS") true 2).map
        (fun r => r.2.2.adjustments.map Prod.fst)
      = some ["home_away", "rest", "form", "minutes"] := by
  rw [predict_with_context, predictCore_G5REB]
  rfl

theorem recentPairs_G4 :
    recentPairs G4 "PTS" = [(10, 1), (20, 9 / 10), (30, 4 / 5), (40, 7 / 10), (50, 3 / 5)] := by
  simp [recentPairs, G4, collectRW, simpleGame, try_float_default0, List.take]
  norm_num

theorem calculate_base_val_G4 : calculate_base_val G4 "PTS" = some (55 / 2) := by
  rw [calculate_base_val, weighted_avg_of, recentPairs_G4]
  norm_num

/-- Counterexample to C4 as stated: on the series [10,20,30,40,50]
(most-recent-first) the weighted sum is 110, not 125, so the base value is
27.5, not 31.25. -/
theorem C4_counterexample :
    calculate_base_val G4 "PTS" = some (55 / 2)
    ∧ ¬ calculate_base_val G4 "PTS" = some (125 / 4) := by
  refine ⟨calculate_base_val_G4, ?_⟩
  rw [calculate_base_val_G4]
  simp only [Option.some.injEq]
  norm_num

/-- Claim C4, amended: the recency weights on [10,20,30,40,50] are
[1.0,0.9,0.8,0.7,0.6] and the weighted-mean base value is
110/4.0 = 27.5. -/
theorem C4_amended :
    (recentPairs G4 "PTS").map Prod.snd = [1, 9 / 10, 4 / 5, 7 / 10, 3 / 5]
    ∧ calculate_base_val G4 "PTS" = some (110 / 4) := by
  constructor
  · rw [recentPairs_G4]; rfl
  · rw [calculate_base_val_G4]
    exact congrArg some (by norm_num)

theorem adjust_confidence_mem (b : ℝ) (n : ℕ) (adjs : List (String × ℚ)) :
    50 ≤ adjust_confidence b n adjs ∧ adjust_confidence b n adjs ≤ 95 := by
  unfold adjust_confidence
  exact ⟨le_max_left _ _, max_le (by norm_num) (min_le_left _ _)⟩

theorem le_rheR (a : ℤ) (x : ℝ) (ha : (a : ℝ) ≤ x) : a ≤ rheR x := by
  have hf : a ≤ ⌊x⌋ := Int.le_floor.mpr ha
  rw [rheR]
  split_ifs <;> omega

theorem rheR_le (b : ℤ) (x : ℝ) (hb : x ≤ (b : ℝ)) : rheR x ≤ b := by
  have hfb : ⌊x⌋ ≤ b := by
    have h := Int.floor_le_floor hb
    simpa using h
  have hup : 1 / 2 ≤ x - (⌊x⌋ : ℝ) → ⌊x⌋ < b := by
    intro hh
    have h1 : (⌊x⌋ : ℝ) < x := by linarith
    have h2 : (⌊x⌋ : ℝ) < (b : ℝ) := lt_of_lt_of_le h1 hb
    exact_mod_cast h2
  rw [rheR]
  split_ifs with h1 h2 h3
  · exact hfb
  · have := hup (by linarith)
    omega
  · exact hfb
  · have := hup (by linarith)
    omega

theorem roundR_mem (x : ℝ) (h1 : 50 ≤ x) (h2 : x ≤ 95) :
    50 ≤ roundR 1 x ∧ roundR 1 x ≤ 95 := by
  rw [roundR]
  have ha : ((500 : ℤ) : ℝ) ≤ x * 10 ^ 1 := by push_cast; linarith
  have hb : x * 10 ^ 1 ≤ ((950 : ℤ) : ℝ) := by push_cast; linarith
  have l1 := le_rheR 500 _ ha
  have l2 := rheR_le 950 _ hb
  constructor
  · rw [le_div_iff (by norm_num : (0 : ℝ) < 10 ^ 1)]
    calc (50 : ℝ) * 10 ^ 1 = ((500 : ℤ) : ℝ) := by norm_num
    _ ≤ rheR (x * 10 ^ 1) := by exact_mod_cast l1
  · rw [div_le_iff (by norm_num : (0 : ℝ) < 10 ^ 1)]
    calc ((rheR (x * 10 ^ 1) : ℤ) : ℝ) ≤ ((950 : ℤ) : ℝ) := by exact_mod_cast l2
    _ = 95 * 10 ^ 1 := by norm_num

/-- Claim C5: whenever the forecast operation returns a result, the
returned confidence lies in [50, 95], whatever the history variance or
the adjustment magnitudes. -/
theorem C5_confidence_range (games : List GameRec) (stat : String)
    (opponent : Option String) (is_home : Bool) (days_rest : ℤ)
    (p : ℚ) (c : ℝ) (bd : Breakdown)
    (h : predict_with_context games stat opponent is_home days_rest = some (p, c, bd)) :
    50 ≤ c ∧ c ≤ 95 := by
  rw [predict_with_context] at h
  cases hc : predictCore games stat opponent is_home days_rest with
  | none => rw [hc] at h; exact absurd h (by simp)
  | some pb =>
    rw [hc] at h
    simp only [Option.map_some'] at h
    have h3 := Option.some.inj h
    have hcc : roundR 1 (adjust_confidence (base_confidence games stat) games.length
        pb.2.adjustments) = c := congrArg (fun t : ℚ × ℝ × Breakdown => t.2.1) h3
    have hm := adjust_confidence_mem (base_confidence games stat) games.length pb.2.adjustments
    have hr := roundR_mem _ hm.1 hm.2
    rw [← hcc]
    exact hr

/-- Witness for C5 at a concrete successful forecast. -/
theorem C5_witness : 50 ≤ conf0 ∧ conf0 ≤ 95 :=
  C5_confidence_range G5 "PTS" none true 2 (41 / 2) conf0 bd0 predict_with_context_G5

theorem collectRW_weight_le (stat : String) (gs : List GameRec) :
    ∀ i p, p ∈ collectRW stat gs i → p.2 ≤ 1 - (i : ℚ) / 10 := by
  induction gs with
  | nil => intro i p hp; simp [collectRW] at hp
  | cons g gs ih =>
    intro i p hp
    rw [collectRW] at hp
    cases h : try_float_default0 (g.stats stat) with
    | none =>
      rw [h] at hp
      have h2 := ih (i + 1) p hp
      push_cast at h2 ⊢
      linarith
    | some v =>
      rw [h] at hp
      rcases List.mem_cons.mp hp with heq | hmem
      · rw [heq]
      · have h2 := ih (i + 1) p hmem
        push_cast at h2 ⊢
        linarith

/-- Claim C9: when the most recent record is skipped for a malformed
value, the later records keep the weights of their raw positions — the
collected pairs are those of the tail at starting index 1, and every
collected weight is at most 0.9 (so the most recent usable value gets a
weight below 1.0). -/
theorem C9_raw_position_weights (g0 : GameRec) (ts : List GameRec) (stat : String)
    (h : try_float_default0 (g0.stats stat) = none) :
    recentPairs (g0 :: ts) stat = collectRW stat (ts.take 4) 1
    ∧ ∀ p ∈ recentPairs (g0 :: ts) stat, p.2 ≤ 9 / 10 := by
  have h1 : recentPairs (g0 :: ts) stat = collectRW stat (ts.take 4) 1 := by
    rw [recentPairs, show (g0 :: ts).take 5 = g0 :: ts.take 4 from rfl, collectRW, h]
  refine ⟨h1, fun p hp => ?_⟩
  rw [h1] at hp
  have h2 := collectRW_weight_le stat (ts.take 4) 1 p hp
  norm_num at h2
  linarith

/-- Witness for C9: a malformed head followed by three usable records. -/
theorem C9_witness :
    recentPairs (gBad :: ts3) "PTS" = collectRW "PTS" (ts3.take 4) 1
    ∧ ∀ p ∈ recentPairs (gBad :: ts3) "PTS", p.2 ≤ 9 / 10 :=
  C9_raw_position_weights gBad ts3 "PTS" rfl

/-- Claim C6, amended: for every tuple with a recognized category, a
forecast, and a non-null, *non-zero* reference line (a zero line is falsy
in Python and is skipped), a comparison is recorded, marked actionable
exactly when the absolute deviation reaches the threshold, with
recommendation OVER if the forecast exceeds the line and UNDER
otherwise. -/
theorem C6_amended_comparison_recorded (e : PropEntry) (es : List PropEntry)
    (min_edge p l : ℚ) (s : String)
    (hp : e.prediction = some p) (hl : e.line = some l) (h0 : ¬ l = 0)
    (hs : statCode e.statType = some s) :
    ∃ c : Comparison,
      (mkComparisons min_edge (e :: es)).1 = c :: (mkComparisons min_edge es).1
      ∧ (mkComparisons min_edge (e :: es)).2 =
          (if min_edge ≤ |p - l| then c :: (mkComparisons min_edge es).2
           else (mkComparisons min_edge es).2)
      ∧ (c.recommendation.isSome = true ↔ min_edge ≤ |p - l|)
      ∧ (min_edge ≤ |p - l| → c.recommendation = some (if l < p then "OVER" else "UNDER"))
      ∧ c.prediction = p ∧ c.line = l := by
  refine ⟨⟨e.player, e.statType, p, l, roundq 1 (p - l),
      if min_edge ≤ |p - l| then some (if 0 < p - l then "OVER" else "UNDER") else none⟩,
    ?_, ?_, ?_, ?_, rfl, rfl⟩
  · simp only [mkComparisons, hl, hs, hp]
    rw [if_neg h0]
  · simp only [mkComparisons, hl, hs, hp]
    rw [if_neg h0]
  · by_cases hm : min_edge ≤ |p - l| <;> simp [hm]
  · intro hm
    simp only [hm, if_true, if_pos hm, sub_pos]

/-- Witness for the amended C6: forecast 10 against line 2.5 with
threshold 2 is recorded and actionable, recommending OVER. -/
theorem C6_witness :
    ∃ c : Comparison,
      (mkComparisons 2 (e6 :: [])).1 = c :: (mkComparisons 2 []).1
      ∧ (mkComparisons 2 (e6 :: [])).2 =
          (if (2 : ℚ) ≤ |10 - 5 / 2| then c :: (mkComparisons 2 []).2
           else (mkComparisons 2 []).2)
      ∧ (c.recommendation.isSome = true ↔ (2 : ℚ) ≤ |10 - 5 / 2|)
      ∧ ((2 : ℚ) ≤ |10 - 5 / 2| → c.recommendation = some (if (5 : ℚ) / 2 < 10 then "OVER" else "UNDER"))
      ∧ c.prediction = 10 ∧ c.line = 5 / 2 :=
  C6_amended_comparison_recorded e6 [] 2 10 (5 / 2) "PTS" rfl rfl (by norm_num) (by decide)

/-- Counterexample to C6 as stated: a tuple with a forecast and the
non-null line 0 records no comparison at all (Python's `if not
betting_line` treats 0 as missing). -/
theorem C6_counterexample :
    mkComparisons 2 [eZero] = ([], [])
    ∧ eZero.line = some 0 ∧ eZero.prediction = some 10 := by
  refine ⟨?_, rfl, rfl⟩
  simp [mkComparisons, eZero]

/-- Claim C7, amended: with the include-all flag set, the second output is
the comparison set sorted stably by descending stored absolute deviation
and then truncated to its first 50 entries (so it can omit comparisons
when more than 50 were made), and the actionable list is the full
actionable subset sorted the same way. -/
theorem C7_amended_outputs (entries : List PropEntry) (min_edge : ℚ) :
    (find_value_bets entries min_edge true).allComparisons =
        some ((sortByEdgeDesc (mkComparisons min_edge entries).1).take 50)
    ∧ (sortByEdgeDesc (mkComparisons min_edge entries).1).Perm
        (mkComparisons min_edge entries).1
    ∧ List.Pairwise (fun a b => |b.edge| ≤ |a.edge|)
        (sortByEdgeDesc (mkComparisons min_edge entries).1)
    ∧ (find_value_bets entries min_edge true).valueBets.Perm
        (mkComparisons min_edge entries).2
    ∧ List.Pairwise (fun a b => |b.edge| ≤ |a.edge|)
        ((find_value_bets entries min_edge true).valueBets) := by
  have htrans : ∀ a b c : Comparison,
      cmpEdge a b = true → cmpEdge b c = true → cmpEdge a c = true := by
    intro a b c h1 h2
    simp only [cmpEdge, decide_eq_true_eq] at h1 h2 ⊢
    exact le_trans h2 h1
  have htotal : ∀ a b : Comparison, (cmpEdge a b || cmpEdge b a) = true := by
    intro a b
    simp only [cmpEdge, Bool.or_eq_true, decide_eq_true_eq]
    exact le_total _ _
  have hpair : ∀ l : List Comparison,
      List.Pairwise (fun a b => |b.edge| ≤ |a.edge|) (sortByEdgeDesc l) := by
    intro l
    have hs := List.sorted_mergeSort htrans htotal l
    rw [sortByEdgeDesc]
    exact hs.imp fun h => by simpa [cmpEdge] using h
  refine ⟨rfl, ?_, hpair _, ?_, hpair _⟩
  · exact List.mergeSort_perm _ _
  · exact List.mergeSort_perm _ _

/-- Counterexample to C7 as stated: with 51 comparisons the include-all
output holds only 50 of them — it is not the full comparison set. -/
theorem C7_counterexample :
    ((find_value_bets entries51 2 true).allComparisons.getD []).length = 50
    ∧ (mkComparisons 2 entries51).1.length = 51 := by
  have hlen : ∀ ks : List ℕ,
      (mkComparisons 2 (ks.map fun (k : ℕ) =>
        ({ player := toString k, statType := "points", prediction := some ((k : ℚ) + 10),
           line := some 1 } : PropEntry))).1.length = ks.length := by
    intro ks
    induction ks with
    | nil => rfl
    | cons k ks ih =>
      rw [List.map_cons]
      simp only [mkComparisons]
      rw [if_neg (by norm_num : ¬ (1 : ℚ) = 0)]
      simp only [show statCode "points" = some "PTS" from by decide]
      simp only [List.length_cons, ih]
  have h51 : (mkComparisons 2 entries51).1.length = 51 := by
    rw [entries51, hlen, List.length_range]
  refine ⟨?_, h51⟩
  rw [find_value_bets]
  simp only [if_pos, Option.getD_some, List.length_take, sortByEdgeDesc,
    List.length_mergeSort, h51]
  omega

/-- Claim C8: setting a key and immediately reading it back within a
positive TTL is a hit returning the payload unchanged, and after a full
flush every read is a miss. -/
theorem C8_cache_roundtrip (α : Type) (c : List (String × α × ℚ)) (k : String) (v : α)
    (now max_age : ℚ) (h : 0 < max_age) :
    get_cached (set_cache c k v now) k max_age now = some v
    ∧ get_cached (flush_all α) k max_age now = none := by
  constructor
  · rw [set_cache, get_cached, List.find?_cons_of_pos _ (by simp)]
    show (if (now - now) / 3600 < max_age then some v else none) = some v
    rw [sub_self, zero_div, if_pos h]
  · rw [flush_all, get_cached]
    rfl

/-- Witness for C8 with a concrete key, payload and TTL. -/
theorem C8_witness :
    get_cached (set_cache ([] : List (String × ℚ × ℚ)) "key" 7 0) "key" 24 0 = some 7
    ∧ get_cached (flush_all ℚ) "key" 24 0 = none :=
  C8_cache_roundtrip ℚ [] "key" 7 0 24 (by norm_num)

/-- Claim C10: `predict_with_injuries` passes the context stage's
confidence through unchanged — whenever it returns a result with
confidence `c`, the context forecast itself returned that same `c`; the
injury boost alters only the final value and the breakdown. -/
theorem C10_confidence_unchanged (inj : List (String × List InjEntry))
    (games : List GameRec) (stat player_name player_team : String)
    (opponent : Option String) (is_home : Bool) (days_rest : ℤ)
    (p : ℚ) (c : ℝ) (bd : Breakdown)
    (h : predict_with_injuries inj games stat player_name player_team opponent is_home days_rest
      = some (p, c, bd)) :
    ∃ p0 bd0, predict_with_context games stat opponent is_home days_rest = some (p0, c, bd0) := by
  rw [predict_with_injuries.eq_def] at h
  cases hpc : predict_with_context games stat opponent is_home days_rest with
  | none => rw [hpc] at h; exact absurd h (by simp)
  | some t =>
    obtain ⟨a, b, d⟩ := t
    rw [hpc] at h
    dsimp only at h
    by_cases hout : is_player_out inj player_team player_name
    · rw [if_pos hout] at h
      exact absurd h (by simp)
    · rw [if_neg hout] at h
      have hbc : b = c := by
        rcases ite_eq_iff.mp h with ⟨_, h2⟩ | ⟨_, h2⟩ <;>
          exact congrArg (fun t : ℚ × ℝ × Breakdown => t.2.1) (Option.some.inj h2)
      exact ⟨a, d, by rw [hbc]⟩

/-- Witness for C10: a concrete injury-aware forecast whose confidence is
exactly the context stage's. -/
theorem C10_witness :
    ∃ p0 bd0, predict_with_context G5 "PTS" none true 2 = some (p0, conf0, bd0) :=
  C10_confidence_unchanged [] G5 "PTS" "Anyone" "LAL" none true 2 (41 / 2) conf0 bdInj
    predict_with_injuries_G5empty

end PhaseADemo
